import Mathlib

/-!
Shallow embedding of the NodePulse core (src/nodepulse.py): the config
store (`BitcoinConfigManager`), the sync estimator (`SyncStatsTracker`),
and the refresh orchestrator (`NodePulseApp.refresh_data`), together with
theorems settling the spec's claims about them.

Conventions of the embedding:
- Python clock reads (`datetime.now()`) become explicit rational-valued
  time parameters (seconds).
- Python ints become `Int`/`Nat`; float division becomes exact division
  on `Rat` (the claims at issue concern signs, zero tests and absence,
  which exact arithmetic preserves).
- A fallible query (`run_command`) is an `Option` value: `none` is the
  collapsed "unavailable" outcome (non-zero exit, timeout, malformed
  output, exception).
- A text file is a list of physical lines, each implicitly terminated by
  a newline; `readlines`/`writelines` round-trip through this view.
- A Python dict is an ordered association list with insert-or-overwrite
  (overwrite keeps the original position, insert appends), matching
  Python 3.7+ dict semantics.
-/

namespace NodePulse

/-- The whitespace characters `str.strip()` removes (the ASCII ones, the
only ones arising in this file format). -/
def pyIsSpace (c : Char) : Bool :=
  c == ' ' || c == '\t' || c == '\n' || c == '\r' || c == '\x0b' || c == '\x0c'

/-- `str.strip()` on a character list: drop whitespace from both ends. -/
def stripChars (l : List Char) : List Char :=
  ((l.dropWhile pyIsSpace).reverse.dropWhile pyIsSpace).reverse

/-- `line.strip()`. -/
def pyStrip (s : String) : String :=
  ⟨stripChars s.data⟩

/-- `line.startswith('#')`. -/
def startsWithHash (s : String) : Bool :=
  match s.data with
  | [] => false
  | c :: _ => c == '#'

/-- `'=' in line`. -/
def containsEq (s : String) : Bool :=
  s.data.any (fun c => c == '=')

/-- `line.split('=', 1)` when `'='` occurs: the characters before and after
the first `'='`. -/
def splitFirstEq : List Char → List Char × List Char
  | [] => ([], [])
  | c :: rest =>
    if c == '=' then ([], rest)
    else
      let r := splitFirstEq rest
      (c :: r.1, r.2)

/-- `int(v)` on an all-digit decimal string. -/
def strToNat (s : String) : Nat :=
  s.data.foldl (fun n c => n * 10 + (c.toNat - 48)) 0

/-- Python `str.isdigit()`: non-empty and every character a digit. -/
def isDigitStr (s : String) : Bool :=
  !(s.data.isEmpty) && s.data.all (fun c => decide (48 ≤ c.toNat) && decide (c.toNat ≤ 57))

/-- A Python dict of strings: ordered association list, keys unique. -/
abbrev Dict := List (String × String)

/-- Membership test `k in d` for the dict model. -/
def dictContains (d : Dict) (k : String) : Bool :=
  d.any (fun p => p.1 == k)

/-- `d[k]` lookup for the dict model (first — hence unique — binding). -/
def dictLookup (d : Dict) (k : String) : Option String :=
  (d.find? (fun p => p.1 == k)).map (fun p => p.2)

/-- `d[k] = v`: overwrite in place when the key exists, append otherwise. -/
def dictInsert (d : Dict) (k v : String) : Dict :=
  if dictContains d k then
    d.map (fun p => if p.1 == k then (k, v) else p)
  else d ++ [(k, v)]

/-- `{**c, **p}`: keys of `c` in order, overridden by `p`, new keys of `p` appended. -/
def dictMerge (c p : Dict) : Dict :=
  p.foldl (fun acc kv => dictInsert acc kv.1 kv.2) c

/-- The key of a stripped config line: `line.split('=', 1)[0].strip()`. -/
def keyOf (stripped : String) : String :=
  if containsEq stripped then ⟨stripChars (splitFirstEq stripped.data).1⟩
  else pyStrip stripped

/-- The value of a stripped config line: `line.split('=', 1)[1].strip()`. -/
def valOf (stripped : String) : String :=
  ⟨stripChars (splitFirstEq stripped.data).2⟩

/-- Whether a raw line is skipped by the config parser (blank or `#`-comment
after stripping). -/
def isSkipLine (line : String) : Bool :=
  pyStrip line == "" || startsWithHash (pyStrip line)

/-- `BitcoinConfigManager.read_config` on the lines of an existing file:
skip blank/comment lines, split remaining lines on the first `=`, assign
into the dict (later occurrences overwrite earlier ones). -/
def readConfigLines (lines : List String) : Dict :=
  lines.foldl
    (fun settings line =>
      let l := pyStrip line
      if l == "" || startsWithHash l then settings
      else if containsEq l then dictInsert settings (keyOf l) (valOf l)
      else settings)
    []

/-- `BitcoinConfigManager.read_config`: an absent file yields the empty
mapping, never an error. -/
def read_config : Option (List String) → Dict
  | none => []
  | some lines => readConfigLines lines

/-- One line of `BitcoinConfigManager.write_config`'s rewrite loop:
comments and blank lines are kept verbatim; a `key=value` line whose key is
in `settings` is rewritten as `key=newvalue`; every other line is kept. -/
def rewriteLine (settings : Dict) (line : String) : String :=
  let s := pyStrip line
  if s == "" || startsWithHash s then line
  else if containsEq s then
    match dictLookup settings (keyOf s) with
    | some v => keyOf s ++ "=" ++ v
    | none => line
  else line

/-- Whether a raw line contributes its key to `write_config`'s
`updated_keys` set when that key is requested: a non-blank, non-comment
line containing `=`. -/
def isKVLineFor (line : String) (k : String) : Bool :=
  !(pyStrip line == "" || startsWithHash (pyStrip line)) && containsEq (pyStrip line)
    && (keyOf (pyStrip line) == k)

/-- The body of `BitcoinConfigManager.write_config` on the lines of an
existing file: rewrite matching `key=value` lines in place, then append
each setting whose key matched no line as `\n# Added by NodePulse\nkey=value\n`
(three physical lines), in the dict's iteration order. -/
def writeConfigLines (lines : List String) (settings : Dict) : List String :=
  lines.map (rewriteLine settings) ++
    (settings.filter (fun kv => !(lines.any (fun l => isKVLineFor l kv.1)))).flatMap
      (fun kv => ["", "# Added by NodePulse", kv.1 ++ "=" ++ kv.2])

/-- `BitcoinConfigManager.write_config`: fails (returns `none`) when the
target file does not exist, otherwise rewrites it. The timestamped backup
is best-effort and does not affect the written contents. -/
def write_config : Option (List String) → Dict → Option (List String)
  | none, _ => none
  | some lines, settings => some (writeConfigLines lines settings)

/-- `BitcoinConfigManager.validate_setting` (the boolean verdict): per-key
rules for `prune`, `maxconnections`, `dbcache`, `rpcport`; any other key
passes. -/
def validate_setting (key value : String) : Bool :=
  if key == "prune" then
    value == "0" || (isDigitStr value && decide (550 ≤ strToNat value))
  else if key == "maxconnections" then
    isDigitStr value && decide (8 ≤ strToNat value) && decide (strToNat value ≤ 125)
  else if key == "dbcache" then
    isDigitStr value && decide (4 ≤ strToNat value) && decide (strToNat value ≤ 16384)
  else if key == "rpcport" then
    isDigitStr value && decide (1024 ≤ strToNat value) && decide (strToNat value ≤ 65535)
  else true

/-- `BitcoinConfigManager.get_default_settings`. -/
def get_default_settings : Dict :=
  [("prune", "0"), ("maxconnections", "125"), ("dbcache", "450"),
   ("server", "0"), ("rpcport", "8332")]

/-- `SettingsPanel.apply_changes` (the persistence core, after the user
confirms): no-op when nothing is pending; validate every pending entry and
perform zero writes if any fails; otherwise write the merge of the current
settings with the pending changes. Returns the file contents afterwards and
whether a write happened. -/
def apply_changes (pending current : Dict) (file : Option (List String)) :
    Option (List String) × Bool :=
  if pending.isEmpty then (file, false)
  else if pending.any (fun kv => !validate_setting kv.1 kv.2) then (file, false)
  else
    match write_config file (dictMerge current pending) with
    | some newLines => (some newLines, true)
    | none => (file, false)

/-- `SettingsPanel.reset_to_defaults` (the persistence core, after the user
confirms): write the five default settings through `write_config`. -/
def reset_to_defaults (file : Option (List String)) : Option (List String) :=
  write_config file get_default_settings

/-! ## Sync Estimator (`SyncStatsTracker`) -/

/-- One data point in `SyncStatsTracker.history`: time (seconds), block
height, header height, initial-block-download flag. -/
structure Sample where
  time : ℚ
  blocks : ℤ
  headers : ℤ
  is_syncing : Bool
deriving DecidableEq

instance : Inhabited Sample := ⟨⟨0, 0, 0, false⟩⟩

/-- `deque(maxlen=max).append`: append on the right; when full, evict from
the left so that at most `max` samples are retained. -/
def pushSample (max : Nat) (h : List Sample) (s : Sample) : List Sample :=
  if h.length < max then h ++ [s] else (h ++ [s]).drop (h.length + 1 - max)

/-- State of `SyncStatsTracker` (the `start_time` field only feeds the
display-layer `get_uptime` and is omitted). -/
structure SyncStatsTracker where
  max_history : Nat
  history : List Sample
  initial_blocks : Option ℤ
  was_syncing : Option Bool
deriving DecidableEq

/-- `SyncStatsTracker.__init__` with the default `max_history=60`. -/
def SyncStatsTracker.init : SyncStatsTracker :=
  ⟨60, [], none, none⟩

/-- `SyncStatsTracker.update(blocks, headers, is_syncing)`, with the
`datetime.now()` read made an explicit parameter `now`. The Python return
value `self.was_syncing and not is_syncing` is `None`/`False`/`True` and is
consumed for its truthiness, which this `Bool` is: truthy exactly when the
previous call's flag was `True` and the current one is falsy. -/
def SyncStatsTracker.update (t : SyncStatsTracker) (now : ℚ) (blocks headers : ℤ)
    (is_syncing : Bool) : SyncStatsTracker × Bool :=
  let initial := t.initial_blocks.getD blocks
  let sync_completed := (t.was_syncing == some true) && !is_syncing
  ({ max_history := t.max_history
     history := pushSample t.max_history t.history ⟨now, blocks, headers, is_syncing⟩
     initial_blocks := some initial
     was_syncing := some is_syncing },
   sync_completed)

/-- `list(history)[-12:]`: the trailing `n`-element sub-window. -/
def lastN (n : Nat) (l : List Sample) : List Sample :=
  l.drop (l.length - n)

/-- `SyncStatsTracker.get_blocks_per_hour`: 0 with fewer than 2 samples;
otherwise, over the trailing 12-sample window, 0 when the elapsed time is
zero and `(newest.blocks - oldest.blocks) / (elapsed hours)` otherwise.
No clamping of negative block deltas. -/
def SyncStatsTracker.get_blocks_per_hour (t : SyncStatsTracker) : ℚ :=
  if t.history.length < 2 then 0
  else
    let recent := lastN 12 t.history
    if recent.length < 2 then 0
    else
      let oldest := recent.headD default
      let newest := recent.getLastD default
      let time_diff := (newest.time - oldest.time) / 3600
      if time_diff = 0 then 0
      else ((newest.blocks - oldest.blocks : ℤ) : ℚ) / time_diff

/-- `SyncStatsTracker.get_eta(current_blocks, total_headers)`: `none` when
the rate is 0 or already caught up; otherwise the remaining blocks divided
by the rate, as a duration in hours (`timedelta(hours=...)`). -/
def SyncStatsTracker.get_eta (t : SyncStatsTracker) (current_blocks total_headers : ℤ) :
    Option ℚ :=
  let bph := t.get_blocks_per_hour
  if bph = 0 ∨ current_blocks ≥ total_headers then none
  else some (((total_headers - current_blocks : ℤ) : ℚ) / bph)

/-- One `update` input: (now, blocks, headers, is_syncing). -/
abbrev UpdateIn := ℚ × ℤ × ℤ × Bool

/-- The sequence of `update` return flags along a sequence of calls. -/
def trackerRunFlags (t : SyncStatsTracker) : List UpdateIn → List Bool
  | [] => []
  | (now, b, h, s) :: rest =>
    let r := t.update now b h s
    r.2 :: trackerRunFlags r.1 rest

/-- The tracker state after a sequence of `update` calls. -/
def trackerRunState (t : SyncStatsTracker) : List UpdateIn → SyncStatsTracker
  | [] => t
  | (now, b, h, s) :: rest => trackerRunState (t.update now b h s).1 rest

/-- Modelled from the spec sentence for the sync-completed edge, to compare
`update`'s returned flags against: given the previous syncing flag, the
edge flag of each call is true exactly when the previous flag was `true`
and the current one is `false` (first-ever call: no previous flag, false). -/
def syncCompletedEdgeSpec (prev : Option Bool) : List Bool → List Bool
  | [] => []
  | b :: bs => ((prev == some true) && !b) :: syncCompletedEdgeSpec (some b) bs

/-! ## Refresh Orchestrator (`NodePulseApp.refresh_data`) -/

/-- The fields of `getblockchaininfo` the orchestrator reads (via
`.get(key, default)`). -/
structure BlockchainInfo where
  blocks : ℤ
  headers : ℤ
  initialblockdownload : Bool
deriving DecidableEq

/-- The field of `getnetworkinfo` the orchestrator reads. -/
structure NetworkInfo where
  connections : ℤ
deriving DecidableEq

/-- `getpeerinfo` reply as the orchestrator holds it (passed through to the
display layer; only presence matters here). -/
structure PeerInfoData where
  payload : ℤ
deriving DecidableEq

/-- `getmempoolinfo` reply as the orchestrator holds it (passed through to
the display layer; only presence matters here). -/
structure MempoolInfoData where
  payload : ℤ
deriving DecidableEq

/-- `BitcoinNodeData.get_uptime`: the raw `uptime` query result, with the
unavailable outcome collapsed to `0` (`if result is not None: return
result; return 0`). -/
def BitcoinNodeData.get_uptime (result : Option ℤ) : ℤ :=
  result.getD 0

/-- The per-query outcomes of one Dispatch phase, as they stand after
`asyncio.gather(..., return_exceptions=True)` and the per-query exception
mapping: each query fails independently (`none`), never aborting the batch.
`now` is the wall-clock read of the cycle. -/
structure CycleInput where
  now : ℚ
  node_running : Bool
  blockchain_info : Option BlockchainInfo
  network_info : Option NetworkInfo
  peer_info : Option PeerInfoData
  mempool_info : Option MempoolInfoData
  uptime_raw : Option ℤ
deriving DecidableEq

/-- The consolidated per-cycle aggregate exposed to consumers: each field
is its query's outcome, absent (`none`) when the query failed — except
`uptime`, which `BitcoinNodeData.get_uptime` has already collapsed to an
integer with failure default `0`. -/
structure Snapshot where
  node_running : Bool
  blockchain_info : Option BlockchainInfo
  network_info : Option NetworkInfo
  peer_info : Option PeerInfoData
  mempool_info : Option MempoolInfoData
  uptime : ℤ
deriving DecidableEq

/-- The snapshot a cycle's query outcomes produce. -/
def snapshotOf (inp : CycleInput) : Snapshot :=
  ⟨inp.node_running, inp.blockchain_info, inp.network_info, inp.peer_info,
   inp.mempool_info, BitcoinNodeData.get_uptime inp.uptime_raw⟩

/-- The alerts `refresh_data` can emit, with their message payloads. -/
inductive Alert where
  | nodeNotResponding
  | connectionRestored
  | syncCompleted
  | lowPeerCount (n : ℤ)
  | peerRecovered (n : ℤ)
deriving DecidableEq

/-- The orchestrator state `refresh_data` reads and writes across cycles. -/
structure AppState where
  tracker : SyncStatsTracker
  last_peer_count : Option ℤ
  node_was_responsive : Bool
deriving DecidableEq

/-- `NodePulseApp.__init__`'s state: fresh tracker, no previous peer count,
node assumed responsive. -/
def AppState.init : AppState :=
  ⟨SyncStatsTracker.init, none, true⟩

/-- The Reconcile phase of `NodePulseApp.refresh_data`: one cycle's state
transition and emitted alerts, in emission order. A failed chain-state
query emits `nodeNotResponding` only on the falling edge and returns early
(tracker and peer state untouched); a successful one emits
`connectionRestored` only on the rising edge, feeds the tracker, emits
`syncCompleted` on the tracker's edge flag, and compares the peer count
against the previous cycle's value for threshold-crossing alerts. -/
def refresh_data (st : AppState) (inp : CycleInput) : AppState × List Alert :=
  match inp.blockchain_info with
  | none =>
    if st.node_was_responsive then
      ({ st with node_was_responsive := false }, [.nodeNotResponding])
    else (st, [])
  | some bi =>
    let restored : List Alert :=
      if st.node_was_responsive then [] else [.connectionRestored]
    let r := st.tracker.update inp.now bi.blocks bi.headers bi.initialblockdownload
    let syncAlerts : List Alert := if r.2 then [.syncCompleted] else []
    match inp.network_info with
    | some ni =>
      let pc := ni.connections
      let peerAlerts : List Alert :=
        match st.last_peer_count with
        | some last =>
          if pc < 3 ∧ last ≥ 3 then [.lowPeerCount pc]
          else if pc ≥ 3 ∧ last < 3 then [.peerRecovered pc]
          else []
        | none => []
      ({ tracker := r.1, last_peer_count := some pc, node_was_responsive := true },
       restored ++ syncAlerts ++ peerAlerts)
    | none =>
      ({ tracker := r.1, last_peer_count := st.last_peer_count,
         node_was_responsive := true },
       restored ++ syncAlerts)

/-- A run of refresh cycles: the final state and each cycle's emitted
alerts, in cycle order. -/
def refreshRun (st : AppState) : List CycleInput → AppState × List (List Alert)
  | [] => (st, [])
  | inp :: rest =>
    let r := refresh_data st inp
    let rr := refreshRun r.1 rest
    (rr.1, r.2 :: rr.2)

/-! ## Concrete instances used by witnesses and counterexamples -/

/-- A fresh tracker fed two samples across which the height falls from 10
to 5 (a reorg), one hour apart. -/
def reorgTracker : SyncStatsTracker :=
  trackerRunState SyncStatsTracker.init [(0, 10, 20, true), (3600, 5, 20, true)]

/-- A fresh tracker fed two samples across which the height rises from 10
to 15, one hour apart. -/
def risingTracker : SyncStatsTracker :=
  trackerRunState SyncStatsTracker.init [(0, 10, 20, true), (3600, 15, 20, true)]

/-- A cycle whose every query succeeds, with peer count `pc`, taken at time
`t`, sync flag off. -/
def steadyCycle (t : ℚ) (pc : ℤ) : CycleInput :=
  ⟨t, true, some ⟨100, 100, false⟩, some ⟨pc⟩, some ⟨7⟩, some ⟨42⟩, some 1000⟩

/-- A cycle whose chain-state query failed while every other query
succeeded. -/
def failCycle : CycleInput :=
  ⟨0, true, none, some ⟨8⟩, some ⟨7⟩, some ⟨42⟩, some 123⟩

/-- The config file of the round-trip scenario: unrelated comments, a blank
line, a pre-existing `maxconnections=125` line and an unrelated
`server=1` line. -/
def roundTripFile : List String :=
  ["# Bitcoin Core configuration", "maxconnections=125", "", "# node options", "server=1"]

/-- The settings written in the round-trip scenario, in insertion order. -/
def roundTripSettings : Dict :=
  [("prune", "0"), ("maxconnections", "50")]

/-- The parsed `key=value` payloads of a file's lines, in file order: the
lines `read_config` does not skip, each as its (key, value) pair. -/
def kvEntries (lines : List String) : List (String × String) :=
  lines.filterMap (fun line =>
    let l := pyStrip line
    if l == "" || startsWithHash l then none
    else if containsEq l then some (keyOf l, valOf l) else none)

/-- The value of the last parsed `key=value` line of the file whose key is
`k` (found as the first match in reverse file order). -/
def lastKV (lines : List String) (k : String) : Option String :=
  ((kvEntries lines).reverse.find? (fun p => p.1 == k)).map (fun p => p.2)

/-! ## Shared lemmas -/

/-- Along any sequence of calls, the flags `update` returns coincide with
the spec-side edge computation seeded with the tracker's current latch. -/
theorem trackerRunFlags_eq_edgeSpec (t : SyncStatsTracker) (ins : List UpdateIn) :
    trackerRunFlags t ins =
      syncCompletedEdgeSpec t.was_syncing (ins.map (fun u => u.2.2.2)) := by
  induction ins generalizing t with
  | nil => rfl
  | cons u rest ih =>
    obtain ⟨now, b, h, s⟩ := u
    simp [trackerRunFlags, SyncStatsTracker.update, syncCompletedEdgeSpec, ih]

/-! ## Claims -/

/-- C4: along every sequence of calls to `SyncStatsTracker.update` on a
fresh tracker, the returned sync-completed flag is (truthy) true on exactly
those calls where the syncing flag of the previous call was true and the
current one is false, and false on every other call — in particular on the
first-ever call (no previous flag) and on false-to-false or true-to-true
steps, as the spec-side edge computation `syncCompletedEdgeSpec` makes
explicit. -/
theorem update_returns_sync_completed_edge (ins : List UpdateIn) :
    trackerRunFlags SyncStatsTracker.init ins =
      syncCompletedEdgeSpec none (ins.map (fun u => u.2.2.2)) :=
  trackerRunFlags_eq_edgeSpec SyncStatsTracker.init ins

/-- C7: writing `{prune: "0", maxconnections: "50"}` into a file holding
unrelated comments, a blank line, `maxconnections=125` and `server=1`
leaves every comment and unrelated line verbatim in its position, rewrites
`maxconnections=50` in place, appends a `prune=0` line (with its
explanatory comment), and re-reading yields exactly
`maxconnections=50, server=1, prune=0`. -/
theorem config_round_trip :
    write_config (some roundTripFile) roundTripSettings =
      some ["# Bitcoin Core configuration", "maxconnections=50", "", "# node options",
            "server=1", "", "# Added by NodePulse", "prune=0"] ∧
    read_config (write_config (some roundTripFile) roundTripSettings) =
      [("maxconnections", "50"), ("server", "1"), ("prune", "0")] := by
  constructor
  · decide
  · decide

/-- C8: the validator enforces the per-key rules — `prune` is `"0"` or an
integer of at least 550, `maxconnections` lies in [8,125], `dbcache` in
[4,16384], `rpcport` in [1024,65535] — and accepts every other key; in
particular `maxconnections=200` fails and `maxconnections=50` passes; and a
pending change set containing any invalid entry leaves the config file
untouched (no write happens). -/
theorem validate_and_atomic_batch :
    (∀ v, validate_setting "prune" v = true ↔
        (v = "0" ∨ (isDigitStr v = true ∧ 550 ≤ strToNat v))) ∧
    (∀ v, validate_setting "maxconnections" v = true ↔
        (isDigitStr v = true ∧ 8 ≤ strToNat v ∧ strToNat v ≤ 125)) ∧
    (∀ v, validate_setting "dbcache" v = true ↔
        (isDigitStr v = true ∧ 4 ≤ strToNat v ∧ strToNat v ≤ 16384)) ∧
    (∀ v, validate_setting "rpcport" v = true ↔
        (isDigitStr v = true ∧ 1024 ≤ strToNat v ∧ strToNat v ≤ 65535)) ∧
    (∀ k v, k ≠ "prune" → k ≠ "maxconnections" → k ≠ "dbcache" → k ≠ "rpcport" →
        validate_setting k v = true) ∧
    validate_setting "maxconnections" "200" = false ∧
    validate_setting "maxconnections" "50" = true ∧
    (∀ pending current file,
        (∃ kv ∈ pending, validate_setting kv.1 kv.2 = false) →
        (apply_changes pending current file).1 = file ∧
        (apply_changes pending current file).2 = false) := by
  refine ⟨?_, ?_, ?_, ?_, ?_, by decide, by decide, ?_⟩
  · intro v
    simp [validate_setting, Bool.or_eq_true, Bool.and_eq_true, and_assoc]
  · intro v
    simp [validate_setting, Bool.and_eq_true, and_assoc]
  · intro v
    simp [validate_setting, Bool.and_eq_true, and_assoc]
  · intro v
    simp [validate_setting, Bool.and_eq_true, and_assoc]
  · intro k v h1 h2 h3 h4
    simp [validate_setting, h1, h2, h3, h4]
  · intro pending current file h
    obtain ⟨kv, hmem, hval⟩ := h
    have hne : pending.isEmpty = false := by
      cases pending with
      | nil => cases hmem
      | cons a rest => rfl
    have hany : pending.any (fun kv => !validate_setting kv.1 kv.2) = true := by
      simp only [List.any_eq_true]
      exact ⟨kv, hmem, by simp [hval]⟩
    simp [apply_changes, hne, hany]

/-- C8 witness: an unknown key passes, and a batch holding the invalid
`maxconnections=200` leaves the file exactly as it was, with no write. -/
theorem validate_and_atomic_batch_witness :
    validate_setting "addnode" "1.2.3.4" = true ∧
    (apply_changes [("maxconnections", "200")] [] (some ["server=1"])).1 =
      some ["server=1"] ∧
    (apply_changes [("maxconnections", "200")] [] (some ["server=1"])).2 = false := by
  have h := validate_and_atomic_batch
  have hbad := h.2.2.2.2.2.2.2 [("maxconnections", "200")] [] (some ["server=1"])
    ⟨("maxconnections", "200"), by simp, by decide⟩
  exact ⟨h.2.2.2.2.1 "addnode" "1.2.3.4" (by decide) (by decide) (by decide) (by decide),
    hbad.1, hbad.2⟩

/-- Helper for C9: a line that is blank, a comment, holds no `=`, or whose
key is none of the five default keys is kept verbatim by the rewrite pass
when the default settings are written. -/
theorem rewriteLine_id_of_frame (l : String)
    (hframe : pyStrip l = "" ∨ startsWithHash (pyStrip l) = true ∨
      containsEq (pyStrip l) = false ∨
      (keyOf (pyStrip l) ≠ "prune" ∧ keyOf (pyStrip l) ≠ "maxconnections" ∧
       keyOf (pyStrip l) ≠ "dbcache" ∧ keyOf (pyStrip l) ≠ "server" ∧
       keyOf (pyStrip l) ≠ "rpcport")) :
    rewriteLine get_default_settings l = l := by
  unfold rewriteLine
  rcases hframe with h | h | h | ⟨h1, h2, h3, h4, h5⟩
  · simp [h]
  · simp [h]
  · by_cases hs : (pyStrip l == "" || startsWithHash (pyStrip l)) = true
    · simp [hs]
    · simp [hs, h]
  · by_cases hs : (pyStrip l == "" || startsWithHash (pyStrip l)) = true
    · simp [hs]
    · by_cases hc : containsEq (pyStrip l) = true
      · have e1 : ("prune" == keyOf (pyStrip l)) = false :=
          beq_eq_false_iff_ne.mpr (Ne.symm h1)
        have e2 : ("maxconnections" == keyOf (pyStrip l)) = false :=
          beq_eq_false_iff_ne.mpr (Ne.symm h2)
        have e3 : ("dbcache" == keyOf (pyStrip l)) = false :=
          beq_eq_false_iff_ne.mpr (Ne.symm h3)
        have e4 : ("server" == keyOf (pyStrip l)) = false :=
          beq_eq_false_iff_ne.mpr (Ne.symm h4)
        have e5 : ("rpcport" == keyOf (pyStrip l)) = false :=
          beq_eq_false_iff_ne.mpr (Ne.symm h5)
        have hnone : dictLookup get_default_settings (keyOf (pyStrip l)) = none := by
          simp [dictLookup, get_default_settings, List.find?, e1, e2, e3, e4, e5]
        simp [hs, hc, hnone]
      · simp [hs, hc]

/-- C9: resetting to defaults rewrites or appends only the five default
keys; every line of the config file that is a comment, a blank line, a line
without `=`, or a `key=value` line for any other key keeps its content and
its position (index) unchanged. -/
theorem reset_frame (lines : List String) (i : Nat) (l : String)
    (hl : lines[i]? = some l)
    (hframe : pyStrip l = "" ∨ startsWithHash (pyStrip l) = true ∨
      containsEq (pyStrip l) = false ∨
      (keyOf (pyStrip l) ≠ "prune" ∧ keyOf (pyStrip l) ≠ "maxconnections" ∧
       keyOf (pyStrip l) ≠ "dbcache" ∧ keyOf (pyStrip l) ≠ "server" ∧
       keyOf (pyStrip l) ≠ "rpcport")) :
    reset_to_defaults (some lines) = some (writeConfigLines lines get_default_settings) ∧
    (writeConfigLines lines get_default_settings)[i]? = some l := by
  refine ⟨rfl, ?_⟩
  have hi : i < lines.length := by
    by_contra hge
    rw [List.getElem?_eq_none (by omega)] at hl
    cases hl
  unfold writeConfigLines
  rw [List.getElem?_append]
  simp only [List.length_map]
  rw [if_pos hi, List.getElem?_map, hl]
  simp [rewriteLine_id_of_frame l hframe]

/-- C9 witness: resetting a file holding a comment and an unrelated
`addnode` line keeps that line at its index. -/
theorem reset_frame_witness :
    (writeConfigLines ["# c", "addnode=1.2.3.4"] get_default_settings)[1]? =
      some "addnode=1.2.3.4" :=
  (reset_frame ["# c", "addnode=1.2.3.4"] 1 "addnode=1.2.3.4" (by decide)
    (Or.inr (Or.inr (Or.inr ⟨by decide, by decide, by decide, by decide, by decide⟩)))).2

/-- Unfolding lemma: dict lookup on a cons. -/
theorem dictLookup_cons (x : String × String) (d : Dict) (k : String) :
    dictLookup (x :: d) k = if (x.1 == k) = true then some x.2 else dictLookup d k := by
  by_cases h : (x.1 == k) = true
  · simp [dictLookup, List.find?_cons_of_pos _ h, h]
  · simp [dictLookup, List.find?_cons_of_neg _ h, h]

/-- Replacing the bindings of key `a` does not change lookups of another key. -/
theorem dictLookup_map_replace_ne (d : Dict) (a v k : String) (hak : (a == k) = false) :
    dictLookup (d.map (fun p => if (p.1 == a) = true then (a, v) else p)) k =
      dictLookup d k := by
  induction d with
  | nil => rfl
  | cons p d ih =>
    rw [List.map_cons]
    by_cases hp : (p.1 == a) = true
    · have hp' : p.1 = a := eq_of_beq hp
      rw [if_pos hp, dictLookup_cons, dictLookup_cons]
      rw [if_neg (by simp [hak]), if_neg (by simp [hp', hak]), ih]
    · rw [if_neg hp, dictLookup_cons, dictLookup_cons, ih]

/-- Replacing the bindings of a present key makes its lookup the new value. -/
theorem dictLookup_map_replace_eq (d : Dict) (a v : String)
    (hc : dictContains d a = true) :
    dictLookup (d.map (fun p => if (p.1 == a) = true then (a, v) else p)) a =
      some v := by
  induction d with
  | nil => simp [dictContains] at hc
  | cons p d ih =>
    rw [List.map_cons]
    by_cases hp : (p.1 == a) = true
    · rw [if_pos hp, dictLookup_cons]
      simp
    · rw [if_neg hp, dictLookup_cons, if_neg hp]
      exact ih (by simpa [dictContains, hp] using hc)

/-- Appending a binding for an absent key: lookup finds it for that key and
is unchanged for others. -/
theorem dictLookup_append_single (d : Dict) (a v k : String)
    (hc : dictContains d a = false) :
    dictLookup (d ++ [(a, v)]) k =
      if (a == k) = true then some v else dictLookup d k := by
  induction d with
  | nil => simp [dictLookup_cons, dictLookup]
  | cons p d ih =>
    have h1 : (p.1 == a) = false := by
      by_contra hcon
      simp only [Bool.not_eq_false] at hcon
      simp [dictContains, hcon] at hc
    have h2 : dictContains d a = false := by
      simpa [dictContains, h1] using hc
    rw [List.cons_append, dictLookup_cons, dictLookup_cons]
    by_cases hpk : (p.1 == k) = true
    · by_cases hak : (a == k) = true
      · exfalso
        have : p.1 = a := (eq_of_beq hpk).trans (eq_of_beq hak).symm
        simp [this] at h1
      · simp [hpk, hak]
    · simp [hpk, ih h2]

/-- Python dict assignment semantics: after `d[a] = v`, looking up `a`
yields `v` and every other key is unchanged. -/
theorem dictLookup_insert (d : Dict) (a v k : String) :
    dictLookup (dictInsert d a v) k =
      if (a == k) = true then some v else dictLookup d k := by
  unfold dictInsert
  by_cases hc : dictContains d a = true
  · rw [if_pos hc]
    by_cases hak : (a == k) = true
    · have h' : a = k := eq_of_beq hak
      subst h'
      rw [if_pos hak]
      have := dictLookup_map_replace_eq d a v hc
      simpa using this
    · rw [if_neg hak]
      have := dictLookup_map_replace_ne d a v k (by simpa using hak)
      simpa using this
  · rw [if_neg hc]
    exact dictLookup_append_single d a v k (by simpa using hc)

/-- Folding assignments over entries: a lookup returns the value of the
last entry with that key, falling back to the initial dict. -/
theorem dictLookup_foldl_insert (es : List (String × String)) (d : Dict) (k : String) :
    dictLookup (es.foldl (fun acc p => dictInsert acc p.1 p.2) d) k =
      match es.reverse.find? (fun p => p.1 == k) with
      | some p => some p.2
      | none => dictLookup d k := by
  induction es generalizing d with
  | nil => simp
  | cons p es ih =>
    rw [List.foldl_cons, ih, List.reverse_cons, List.find?_append]
    cases hfind : es.reverse.find? (fun q => q.1 == k) with
    | some q => rfl
    | none =>
      rw [dictLookup_insert]
      by_cases hpk : (p.1 == k) = true
      · simp [List.find?_cons_of_pos _ hpk, hpk]
      · simp [List.find?_cons_of_neg _ hpk, hpk]

/-- The parser is the fold of dict assignment over the parsed entries. -/
theorem readConfigLines_eq_foldl (lines : List String) (d : Dict) :
    lines.foldl (fun settings line =>
      let l := pyStrip line
      if l == "" || startsWithHash l then settings
      else if containsEq l then dictInsert settings (keyOf l) (valOf l)
      else settings) d =
    (kvEntries lines).foldl (fun acc p => dictInsert acc p.1 p.2) d := by
  induction lines generalizing d with
  | nil => rfl
  | cons line rest ih =>
    rw [List.foldl_cons]
    by_cases hs : (pyStrip line == "" || startsWithHash (pyStrip line)) = true
    · simp only [kvEntries, List.filterMap_cons, hs, if_true]
      exact ih d
    · by_cases hc : containsEq (pyStrip line) = true
      · simp only [kvEntries, List.filterMap_cons, hs, if_false, hc, if_true]
        exact ih _
      · simp only [kvEntries, List.filterMap_cons, hs, if_false, hc]
        exact ih d

/-- C10: in a config file where the same key occurs on more than one
parsed `key=value` line, `read_config` maps that key to the value of the
last such line (which exists). -/
theorem read_config_last_occurrence_wins (lines : List String) (k : String)
    (h : 2 ≤ (kvEntries lines).countP (fun p => p.1 == k)) :
    dictLookup (read_config (some lines)) k = lastKV lines k ∧
    (lastKV lines k).isSome = true := by
  constructor
  · show dictLookup (readConfigLines lines) k = _
    rw [readConfigLines, readConfigLines_eq_foldl, dictLookup_foldl_insert]
    unfold lastKV
    cases hfind : (kvEntries lines).reverse.find? (fun p => p.1 == k) with
    | some q => simp
    | none => simp [dictLookup]
  · have hpos : 0 < (kvEntries lines).countP (fun p => p.1 == k) := by omega
    obtain ⟨p, hmem, hp⟩ := List.countP_pos_iff.mp hpos
    have hs : ((kvEntries lines).reverse.find? (fun q => q.1 == k)).isSome = true :=
      List.find?_isSome.mpr ⟨p, List.mem_reverse.mpr hmem, hp⟩
    unfold lastKV
    cases hf : (kvEntries lines).reverse.find? (fun q => q.1 == k) with
    | none => rw [hf] at hs; cases hs
    | some q => simp [hf]


/-- C10 witness: with two `maxconnections` lines, the read maps the key to
the last line's value. -/
theorem read_config_last_occurrence_wins_witness :
    dictLookup (read_config (some ["maxconnections=10", "# c", "maxconnections=20"]))
        "maxconnections" =
      lastKV ["maxconnections=10", "# c", "maxconnections=20"] "maxconnections" ∧
    (lastKV ["maxconnections=10", "# c", "maxconnections=20"] "maxconnections").isSome =
      true :=
  read_config_last_occurrence_wins ["maxconnections=10", "# c", "maxconnections=20"]
    "maxconnections" (by decide)

/-- A pairwise-related list of length at least 2 relates its head to its
last element. -/
theorem pairwise_headD_getLastD {R : Sample → Sample → Prop} :
    ∀ (l : List Sample), l.Pairwise R → 2 ≤ l.length →
      R (l.headD default) (l.getLastD default)
  | [], _, hlen => by simp at hlen
  | [a], _, hlen => by simp at hlen
  | a :: b :: rest, hp, _ => by
    have h1 : ∀ x ∈ b :: rest, R a x := (List.pairwise_cons.mp hp).1
    have hne : (b :: rest) ≠ [] := by simp
    have hlast : (a :: b :: rest).getLastD default = (b :: rest).getLast hne := by
      rw [List.getLastD_eq_getLast?, List.getLast?_eq_getLast _ (by simp),
        List.getLast_cons hne]
      rfl
    rw [List.headD_cons, hlast]
    exact h1 _ (List.getLast_mem hne)

/-- C1 (amended): when the recorded samples have nondecreasing times and
nondecreasing heights, `get_blocks_per_hour` is nonnegative; the code does
not clamp a height decrease, so a reorg can make it negative. -/
theorem throughput_nonneg_of_monotone (t : SyncStatsTracker)
    (hmono : t.history.Pairwise (fun a b => a.time ≤ b.time ∧ a.blocks ≤ b.blocks)) :
    0 ≤ t.get_blocks_per_hour := by
  unfold SyncStatsTracker.get_blocks_per_hour
  dsimp only
  split
  · exact le_refl 0
  split
  · exact le_refl 0
  next h1 h2 =>
    have hp : (lastN 12 t.history).Pairwise (fun a b => a.time ≤ b.time ∧ a.blocks ≤ b.blocks) :=
      hmono.sublist (List.drop_sublist _ _)
    obtain ⟨ht, hb⟩ := pairwise_headD_getLastD (lastN 12 t.history) hp (by omega)
    split
    · exact le_refl 0
    next h3 =>
      apply div_nonneg
      · have : (0 : ℤ) ≤ ((lastN 12 t.history).getLastD default).blocks -
            ((lastN 12 t.history).headD default).blocks := sub_nonneg.mpr hb
        exact_mod_cast this
      · apply div_nonneg (sub_nonneg.mpr ht)
        norm_num

/-- C1 counterexample: feeding a fresh tracker two samples one hour apart
whose height falls from 10 to 5 makes `get_blocks_per_hour` negative — the
claimed clamping to zero does not happen. -/
theorem throughput_negative_after_reorg :
    reorgTracker.get_blocks_per_hour < 0 := by
  have h : reorgTracker.get_blocks_per_hour = -5 := by
    norm_num [reorgTracker, trackerRunState, SyncStatsTracker.update,
      SyncStatsTracker.init, pushSample, SyncStatsTracker.get_blocks_per_hour, lastN]
  rw [h]
  norm_num

/-- C1 witness: a tracker fed rising heights has nonnegative throughput. -/
theorem throughput_nonneg_of_monotone_witness :
    0 ≤ risingTracker.get_blocks_per_hour :=
  throughput_nonneg_of_monotone risingTracker (by
    norm_num [risingTracker, trackerRunState, SyncStatsTracker.update,
      SyncStatsTracker.init, pushSample, List.pairwise_cons])

/-- C5 (amended): `get_eta` is absent exactly when the throughput is 0
(which covers fewer than 2 samples) or the current height has reached the
header height (a transient overshoot is treated as caught-up); otherwise it
returns `(total - current) / throughput` hours, which is positive whenever
the throughput is positive — but negative when a reorg has made the
throughput negative. -/
theorem get_eta_characterization (t : SyncStatsTracker) (cur total : ℤ) :
    (t.get_eta cur total = none ↔ (t.get_blocks_per_hour = 0 ∨ total ≤ cur)) ∧
    (∀ d, t.get_eta cur total = some d →
      d = ((total - cur : ℤ) : ℚ) / t.get_blocks_per_hour ∧
      (0 < t.get_blocks_per_hour → 0 < d)) := by
  unfold SyncStatsTracker.get_eta
  by_cases hcond : t.get_blocks_per_hour = 0 ∨ cur ≥ total
  · refine ⟨?_, ?_⟩
    · simp only [if_pos hcond]
      simpa [ge_iff_le] using hcond
    · intro d hd
      rw [if_pos hcond] at hd
      cases hd
  · refine ⟨?_, ?_⟩
    · simp only [if_neg hcond]
      simpa [ge_iff_le] using hcond
    · intro d hd
      rw [if_neg hcond] at hd
      push_neg at hcond
      obtain ⟨hbph, hlt⟩ := hcond
      obtain rfl : ((total - cur : ℤ) : ℚ) / t.get_blocks_per_hour = d :=
        Option.some_inj.mp hd
      refine ⟨rfl, fun hpos => ?_⟩
      apply div_pos ?_ hpos
      have : (0 : ℤ) < total - cur := by
        have : cur < total := lt_of_not_le (by simpa [ge_iff_le] using hlt)
        omega
      exact_mod_cast this

/-- C5 counterexample: after the reorg samples the throughput is negative
and `get_eta` returns a negative duration, not a positive one and not
absent. -/
theorem get_eta_negative_after_reorg :
    reorgTracker.get_eta 5 10 = some (-1) ∧ (-1 : ℚ) < 0 := by
  refine ⟨?_, by norm_num⟩
  norm_num [reorgTracker, trackerRunState, SyncStatsTracker.update,
    SyncStatsTracker.init, pushSample, SyncStatsTracker.get_eta,
    SyncStatsTracker.get_blocks_per_hour, lastN]

/-- C5 witness: a tracker fed rising heights (throughput 5 blocks/hour)
five blocks from the header tip reports a positive one-hour ETA. -/
theorem get_eta_characterization_witness :
    risingTracker.get_eta 15 20 = some 1 ∧ (0 : ℚ) < 1 := by
  have heta : risingTracker.get_eta 15 20 = some 1 := by
    norm_num [risingTracker, trackerRunState, SyncStatsTracker.update,
      SyncStatsTracker.init, pushSample, SyncStatsTracker.get_eta,
      SyncStatsTracker.get_blocks_per_hour, lastN]
  have hbph : risingTracker.get_blocks_per_hour = 5 := by
    norm_num [risingTracker, trackerRunState, SyncStatsTracker.update,
      SyncStatsTracker.init, pushSample, SyncStatsTracker.get_blocks_per_hour, lastN]
  refine ⟨heta, ?_⟩
  exact ((get_eta_characterization risingTracker 15 20).2 1 heta).2 (by rw [hbph]; norm_num)

/-- C3 (amended): every snapshot field whose source query failed is
explicitly absent — except `uptime`, whose failed query is collapsed to the
integer 0 by `BitcoinNodeData.get_uptime` rather than left absent. -/
theorem snapshot_absent_fields (inp : CycleInput) :
    (inp.blockchain_info = none → (snapshotOf inp).blockchain_info = none) ∧
    (inp.network_info = none → (snapshotOf inp).network_info = none) ∧
    (inp.peer_info = none → (snapshotOf inp).peer_info = none) ∧
    (inp.mempool_info = none → (snapshotOf inp).mempool_info = none) ∧
    (inp.uptime_raw = none → (snapshotOf inp).uptime = 0) := by
  refine ⟨fun h => ?_, fun h => ?_, fun h => ?_, fun h => ?_, fun h => ?_⟩ <;>
    simp [snapshotOf, BitcoinNodeData.get_uptime, h]

/-- C3 counterexample: a failed `uptime` query yields the value 0 in the
snapshot — exactly the value the claim says can never stand for a failed
query. -/
theorem uptime_failure_yields_zero :
    BitcoinNodeData.get_uptime none = 0 ∧
    (snapshotOf ⟨0, false, none, none, none, none, none⟩).uptime = 0 :=
  ⟨rfl, rfl⟩

/-- C3 witness: with every query failed, the chain-state field is absent
and the uptime field is 0. -/
theorem snapshot_absent_fields_witness :
    (snapshotOf ⟨0, false, none, none, none, none, none⟩).blockchain_info = none ∧
    (snapshotOf ⟨0, false, none, none, none, none, none⟩).uptime = 0 := by
  have h := snapshot_absent_fields ⟨0, false, none, none, none, none, none⟩
  exact ⟨h.1 rfl, h.2.2.2.2 rfl⟩

/-- C2: when the chain-state query fails and the others succeed, only the
chain-state snapshot field is absent and every other queried field carries
its value; the `nodeNotResponding` alert is emitted exactly once on the
falling edge (the first failing cycle after a success) and not on later
failing cycles, and the `connectionRestored` alert is emitted exactly once
on the rising edge and not on steady successful cycles — the responsive
latch updating accordingly. -/
theorem chain_failure_isolation_and_responsiveness_edges
    (st : AppState) (inp : CycleInput) :
    (∀ ni pi mi ut, inp.blockchain_info = none → inp.network_info = some ni →
      inp.peer_info = some pi → inp.mempool_info = some mi →
      inp.uptime_raw = some ut →
      (snapshotOf inp).blockchain_info = none ∧
      (snapshotOf inp).network_info = some ni ∧
      (snapshotOf inp).peer_info = some pi ∧
      (snapshotOf inp).mempool_info = some mi ∧
      (snapshotOf inp).uptime = ut ∧
      (refresh_data st inp).2.count .nodeNotResponding =
        (if st.node_was_responsive then 1 else 0) ∧
      (refresh_data st inp).1.node_was_responsive = false) ∧
    (∀ bi, inp.blockchain_info = some bi →
      (refresh_data st inp).2.count .connectionRestored =
        (if st.node_was_responsive then 0 else 1) ∧
      (refresh_data st inp).1.node_was_responsive = true) := by
  constructor
  · intro ni pi mi ut hbc hni hpi hmi hut
    by_cases hr : st.node_was_responsive <;>
      simp [snapshotOf, BitcoinNodeData.get_uptime, refresh_data, hbc, hni, hpi,
        hmi, hut, hr, List.count_cons, List.count_nil]
  · intro bi hbi
    cases hni : inp.network_info with
    | none =>
      by_cases hr : st.node_was_responsive <;>
        simp [refresh_data, hbi, hni, hr, List.count_append, List.count_cons,
          List.count_nil] <;>
        split <;>
        simp [List.count_cons, List.count_nil]
    | some ni =>
      cases hlp : st.last_peer_count with
      | none =>
        by_cases hr : st.node_was_responsive <;>
          simp [refresh_data, hbi, hni, hlp, hr, List.count_append, List.count_cons,
            List.count_nil] <;>
          split <;>
          simp [List.count_cons, List.count_nil]
      | some last =>
        by_cases hr : st.node_was_responsive <;>
          simp [refresh_data, hbi, hni, hlp, hr, List.count_append, List.count_cons,
            List.count_nil] <;>
          split <;>
          split_ifs <;>
          simp [List.count_cons, List.count_nil]

/-- C6: over the peer-count sequence 5,5,2,2,4 with threshold 3, exactly
one low-peer warning is emitted, at index 2, and exactly one recovery
alert, at index 4, with no alert at indices 0, 1 or 3; and in general a
peer count that stays on the same side of the threshold as the previous
cycle emits no peer alert at all. -/
theorem peer_threshold_edge_alerts :
    (refreshRun AppState.init
      [steadyCycle 0 5, steadyCycle 10 5, steadyCycle 20 2, steadyCycle 30 2,
       steadyCycle 40 4]).2 =
      [[], [], [.lowPeerCount 2], [], [.peerRecovered 4]] ∧
    (∀ st inp bi ni last, inp.blockchain_info = some bi → inp.network_info = some ni →
      st.last_peer_count = some last →
      ((ni.connections < 3 ∧ last < 3) ∨ (3 ≤ ni.connections ∧ 3 ≤ last)) →
      ∀ n, Alert.lowPeerCount n ∉ (refresh_data st inp).2 ∧
           Alert.peerRecovered n ∉ (refresh_data st inp).2) := by
  constructor
  · decide
  · intro st inp bi ni last hbi hni hlp hcond n
    have h1 : ¬(ni.connections < 3 ∧ last ≥ 3) := by
      rcases hcond with ⟨_, h⟩ | ⟨h, _⟩ <;> omega
    have h2 : ¬(ni.connections ≥ 3 ∧ last < 3) := by
      rcases hcond with ⟨h, _⟩ | ⟨_, h⟩ <;> omega
    simp only [refresh_data, hbi, hni, hlp, h1, h2, if_false]
    constructor <;>
      (intro hmem
       simp [List.mem_append] at hmem)


/-- C2 witness: from the initial (responsive) state, one failing cycle with
all other queries healthy isolates the failure to the chain-state field and
emits the unresponsive alert once; the next successful cycle emits the
restored alert once. -/
theorem chain_failure_isolation_witness :
    (snapshotOf failCycle).blockchain_info = none ∧
    (snapshotOf failCycle).network_info = some ⟨8⟩ ∧
    (refresh_data AppState.init failCycle).2.count .nodeNotResponding = 1 ∧
    (refresh_data AppState.init failCycle).1.node_was_responsive = false ∧
    (refresh_data (refresh_data AppState.init failCycle).1 (steadyCycle 10 5)).2.count
        .connectionRestored = 1 := by
  have h1 := (chain_failure_isolation_and_responsiveness_edges AppState.init failCycle).1
    ⟨8⟩ ⟨7⟩ ⟨42⟩ 123 rfl rfl rfl rfl rfl
  have h2 := (chain_failure_isolation_and_responsiveness_edges
    (refresh_data AppState.init failCycle).1 (steadyCycle 10 5)).2 ⟨100, 100, false⟩ rfl
  refine ⟨h1.1, h1.2.1, ?_, h1.2.2.2.2.2.2, ?_⟩
  · simpa [AppState.init] using h1.2.2.2.2.2.1
  · rw [h2.1, h1.2.2.2.2.2.2]
    rfl

/-- C6 witness: a cycle whose peer count 4 and previous count 5 are both at
or above the threshold emits neither peer alert. -/
theorem peer_threshold_edge_alerts_witness :
    Alert.lowPeerCount 4 ∉
      (refresh_data ⟨SyncStatsTracker.init, some 5, true⟩ (steadyCycle 0 4)).2 ∧
    Alert.peerRecovered 4 ∉
      (refresh_data ⟨SyncStatsTracker.init, some 5, true⟩ (steadyCycle 0 4)).2 :=
  peer_threshold_edge_alerts.2 ⟨SyncStatsTracker.init, some 5, true⟩ (steadyCycle 0 4)
    ⟨100, 100, false⟩ ⟨4⟩ 5 rfl rfl rfl (Or.inr ⟨by norm_num, by norm_num⟩) 4

end NodePulse
